import Mathlib

/-!
Verification of the CAHTBOT.ALPHA triage conversation engine.

This file gives a shallow embedding in Lean 4 of the safety-critical parts of
the repository (emergency classifier, facility router, input normalizers,
pydantic-style response validation, diagnosis sanitizer, session state
machine) and proves or refutes the specified properties about them.

Strings are embedded as `List Char` (`Str`); Python's case-insensitive
substring tests, `str.lower()`, `str.strip()` and the concrete regular
expressions used by the code are modelled character by character.  Character
class functions (`isWordChar`, `isPyWS`, `pyLowerChar`) cover the ASCII range
plus the accented Italian letters that actually occur in the program's
keyword tables; on texts over this alphabet they agree with Python's Unicode
semantics.
-/

/-- Characters of a Python string. -/
abbrev Str := List Char

/-- Accented Italian letters occurring in the program's data. -/
def accentedLower : List Char := ['à', 'è', 'é', 'ì', 'ò', 'ù']

/-- Upper-case forms of `accentedLower`. -/
def accentedUpper : List Char := ['À', 'È', 'É', 'Ì', 'Ò', 'Ù']

/-- Python `str.lower` on one character (ASCII plus the accented letters used). -/
def pyLowerChar (c : Char) : Char :=
  if 'A' ≤ c ∧ c ≤ 'Z' then Char.ofNat (c.toNat + 32)
  else if c = 'À' then 'à'
  else if c = 'È' then 'è'
  else if c = 'É' then 'é'
  else if c = 'Ì' then 'ì'
  else if c = 'Ò' then 'ò'
  else if c = 'Ù' then 'ù'
  else c

/-- Python `str.lower`. -/
def pyLower (s : Str) : Str := s.map pyLowerChar

/-- Python whitespace (`\s`, ASCII range): space, tab, newline, carriage
return, vertical tab, form feed. -/
def isPyWS (c : Char) : Bool :=
  c = ' ' || c = '\t' || c = '\n' || c = '\r' || c = Char.ofNat 11 || c = Char.ofNat 12

/-- Python `str.strip()`: drop whitespace from both ends. -/
def pyStrip (s : Str) : Str :=
  ((s.dropWhile isPyWS).reverse.dropWhile isPyWS).reverse

/-- Python's `in` operator on strings: `containsSub pat s` holds when `pat`
occurs as a contiguous substring of `s`. -/
def containsSub (pat : Str) : Str → Bool
  | [] => pat.isPrefixOf ([] : Str)
  | c :: cs => pat.isPrefixOf (c :: cs) || containsSub pat cs

/-- `containsSub` on `String`s. -/
def inStr (pat s : String) : Bool := containsSub pat.data s.data

/-- Regex word character `\w` (ASCII plus the accented letters used). -/
def isWordChar (c : Char) : Bool :=
  ('a' ≤ c && c ≤ 'z') || ('A' ≤ c && c ≤ 'Z') || ('0' ≤ c && c ≤ '9') ||
  c = '_' || accentedLower.contains c || accentedUpper.contains c

/-- ASCII decimal digit. -/
def isDigitCh (c : Char) : Bool := '0' ≤ c && c ≤ '9'

/-- Python `str.upper` on one character (ASCII plus accented letters). -/
def pyUpperChar (c : Char) : Char :=
  if 'a' ≤ c ∧ c ≤ 'z' then Char.ofNat (c.toNat - 32)
  else if c = 'à' then 'À'
  else if c = 'è' then 'È'
  else if c = 'é' then 'É'
  else if c = 'ì' then 'Ì'
  else if c = 'ò' then 'Ò'
  else if c = 'ù' then 'Ù'
  else c

/-- Alphabetic character, as used by Python `str.title`. -/
def isAlphaCh (c : Char) : Bool :=
  ('a' ≤ c && c ≤ 'z') || ('A' ≤ c && c ≤ 'Z') ||
  accentedLower.contains c || accentedUpper.contains c

/-- Helper for `pyTitle`: the boolean records whether the previous character
was alphabetic. -/
def pyTitleGo (prevAlpha : Bool) : Str → Str
  | [] => []
  | c :: cs =>
    (if isAlphaCh c then (if prevAlpha then pyLowerChar c else pyUpperChar c) else c)
      :: pyTitleGo (isAlphaCh c) cs

/-- Python `str.title()`. -/
def pyTitle (s : Str) : Str := pyTitleGo false s

/-!
## Facility router (`src/smart_router.py`, `SmartRouter.route`)

The knowledge base and logging do not influence the returned disposition, so
the embedding keeps only the computation of the returned record.
-/

/-- The record returned by `SmartRouter.route`: facility name, type code,
advisory note and (always absent) distance. -/
structure Disposition where
  nome : String
  tipo : String
  note : String
  distance_km : Option ℚ
deriving DecidableEq, Repr

/-- Area check of routing rule 2 (mental health). -/
def isMentalArea (area : String) : Bool :=
  inStr "Psichiatria" area || inStr "Psichiatrica" area || inStr "Mentale" area

/-- Area check of routing rule 3 (obstetrics / gynecology). -/
def isObstetricArea (area : String) : Bool :=
  inStr "Ginecologia" area || inStr "Ostetricia" area || inStr "Gravidanza" area

/-- Area check of routing rule 4 (substance dependency). -/
def isDependencyArea (area : String) : Bool :=
  inStr "Dipendenze" area || inStr "Tossicodipendenza" area || inStr "Alcol" area

/-- `SmartRouter.route` from `src/smart_router.py`.  The `location` argument
is lower-cased and stripped by the source but never used for the returned
disposition. -/
def SmartRouter.route (_location : String) (urgenza : Int) (area : String) : Disposition :=
  if urgenza ≥ 4 then
    ⟨"Pronto Soccorso", "PS", "Recati immediatamente in ospedale o chiama il 118.", none⟩
  else if isMentalArea area then
    ⟨"Centro di Salute Mentale", "CSM", "Contatta il servizio territoriale per una valutazione.", none⟩
  else if isObstetricArea area then
    ⟨"Consultorio Familiare", "Consultorio", "Prenota una visita presso il consultorio di zona.", none⟩
  else if isDependencyArea area then
    ⟨"SerD (Servizio Dipendenze)", "SerD", "Accesso diretto o tramite MMG per supporto specialistico.", none⟩
  else if urgenza = 3 then
    ⟨"CAU (Continuità Assistenziale Urgenze)", "CAU", "Centro di Assistenza Urgenza per valutazioni senza appuntamento.", none⟩
  else
    ⟨"Medico di Medicina Generale", "MMG", "Contatta il tuo medico di base per una valutazione nei prossimi giorni.", none⟩

/-- Claim C7: for every location, urgency and area, `SmartRouter.route`
decides the disposition type in fixed priority order: `PS` whenever the
urgency is at least 4 (regardless of area); otherwise `CSM` when the area
matches a mental-health category; otherwise `Consultorio` when the area
matches an obstetric/gynecological category; otherwise `SerD` when the area
matches a substance-dependency category; otherwise `CAU` when the urgency is
exactly 3; otherwise `MMG`. -/
theorem claim_C7_router_priority (location : String) (urgenza : Int) (area : String) :
    ((SmartRouter.route location urgenza area).tipo = "PS" ↔ 4 ≤ urgenza) ∧
    ((SmartRouter.route location urgenza area).tipo = "CSM" ↔
      urgenza < 4 ∧ isMentalArea area = true) ∧
    ((SmartRouter.route location urgenza area).tipo = "Consultorio" ↔
      urgenza < 4 ∧ isMentalArea area = false ∧ isObstetricArea area = true) ∧
    ((SmartRouter.route location urgenza area).tipo = "SerD" ↔
      urgenza < 4 ∧ isMentalArea area = false ∧ isObstetricArea area = false ∧
        isDependencyArea area = true) ∧
    ((SmartRouter.route location urgenza area).tipo = "CAU" ↔
      urgenza = 3 ∧ isMentalArea area = false ∧ isObstetricArea area = false ∧
        isDependencyArea area = false) ∧
    ((SmartRouter.route location urgenza area).tipo = "MMG" ↔
      urgenza < 4 ∧ urgenza ≠ 3 ∧ isMentalArea area = false ∧
        isObstetricArea area = false ∧ isDependencyArea area = false) := by
  unfold SmartRouter.route
  split_ifs with h1 h2 h3 h4 h5 <;> (simp_all; try omega)

/-!
## Emergency classifier (`src/frontend.py`, `assess_emergency_level`)

The keyword tables are the `symptoms` lists of `EMERGENCY_RULES`.  The AI
metadata dict is embedded as `Option MetaFields`: `none` stands for a falsy
dict (`None` or `{}`, for which the source skips the metadata checks), and
each tracked key is optional, read with the same defaults as `dict.get`.
-/

/-- Emergency levels of `frontend.EmergencyLevel`. -/
inductive EmergencyLevel where
  | GREEN
  | YELLOW
  | ORANGE
  | RED
  | BLACK
deriving DecidableEq, Repr

/-- The tracked keys of the AI metadata dict. -/
structure MetaFields where
  urgenza : Option Int := none
  red_flags : Option (List String) := none
  confidence : Option ℚ := none

/-- `EMERGENCY_RULES[EmergencyLevel.BLACK]["symptoms"]`. -/
def blackSymptoms : List String :=
  ["suicidio", "uccidermi", "togliermi la vita", "farla finita",
   "ammazzarmi", "voglio morire", "non voglio più vivere",
   "autolesionismo", "tagliarmi", "farmi male da solo",
   "pensieri suicidari", "ideazione suicidaria"]

/-- `EMERGENCY_RULES[EmergencyLevel.RED]["symptoms"]`. -/
def redSymptoms : List String :=
  ["dolore toracico intenso", "dolore petto insopportabile", "oppressione torace",
   "difficoltà respiratoria grave", "non riesco respirare", "soffoco",
   "perdita di coscienza", "svenuto", "svenimento improvviso",
   "convulsioni", "crisi convulsiva", "attacco epilettico",
   "emorragia massiva", "sangue abbondante", "emorragia incontrollabile",
   "paralisi improvvisa", "metà corpo bloccata", "braccio gamba non si muovono"]

/-- `EMERGENCY_RULES[EmergencyLevel.ORANGE]["symptoms"]`. -/
def orangeSymptoms : List String :=
  ["dolore addominale acuto", "dolore pancia molto forte", "addome rigido",
   "trauma cranico", "battuto forte testa", "caduta testa",
   "febbre alta bambino", "febbre 39 neonato", "febbre bambino piccolo",
   "vomito persistente", "vomito continuo", "vomito sangue",
   "dolore molto forte", "dolore insopportabile", "dolore lancinante"]

/-- `any(symptom.lower() in text_lower for symptom in symptoms)`. -/
def anySymptomIn (symptoms : List String) (textLower : Str) : Bool :=
  symptoms.any (fun k => containsSub (pyLower k.data) textLower)

/-- `assess_emergency_level` from `src/frontend.py`. -/
def assess_emergency_level (user_input : Str) (metadata : Option MetaFields) :
    Option EmergencyLevel :=
  let text_lower := pyStrip (pyLower user_input)
  if anySymptomIn blackSymptoms text_lower then some .BLACK
  else if anySymptomIn redSymptoms text_lower then some .RED
  else
    match metadata with
    | some md =>
      let urgenza := md.urgenza.getD 0
      let red_flags := md.red_flags.getD []
      let confidence := md.confidence.getD 0
      if urgenza ≥ 5 ∧ confidence ≥ 7/10 then some .RED
      else if urgenza ≥ 5 ∨ red_flags.length ≥ 2 then some .RED
      else if urgenza = 4 ∨ red_flags.length = 1 then some .ORANGE
      else if anySymptomIn orangeSymptoms text_lower then some .ORANGE
      else none
    | none =>
      if anySymptomIn orangeSymptoms text_lower then some .ORANGE
      else none

/-- The classifier as the specification words it: one priority-ordered rule
list, first match wins, independent of how each level was detected. -/
def assessClaim (user_input : Str) (metadata : Option MetaFields) :
    Option EmergencyLevel :=
  let text_lower := pyStrip (pyLower user_input)
  let urgenza := (metadata.bind MetaFields.urgenza).getD 0
  let red_flags := (metadata.bind MetaFields.red_flags).getD []
  let confidence := (metadata.bind MetaFields.confidence).getD 0
  if anySymptomIn blackSymptoms text_lower then some .BLACK
  else if anySymptomIn redSymptoms text_lower ∨
          (urgenza ≥ 5 ∧ confidence ≥ 7/10) ∨ urgenza ≥ 5 ∨
          red_flags.length ≥ 2 then some .RED
  else if anySymptomIn orangeSymptoms text_lower ∨ urgenza = 4 ∨
          red_flags.length = 1 then some .ORANGE
  else none

/-- Claim C1: for every raw user text and every AI metadata dict, the
emergency classifier returns the level of the highest-priority matching rule,
first match wins: BLACK whenever a psychiatric-crisis keyword occurs
case-insensitively as a substring of the text; otherwise RED when a critical
medical keyword occurs, or AI urgency ≥ 5 with confidence ≥ 0.7, or urgency
≥ 5, or at least 2 AI red flags; otherwise ORANGE when an urgent keyword
occurs, or AI urgency = 4, or exactly 1 AI red flag; otherwise none. -/
theorem claim_C1_emergency_priority (user_input : Str) (metadata : Option MetaFields) :
    assess_emergency_level user_input metadata = assessClaim user_input metadata := by
  unfold assess_emergency_level assessClaim
  cases metadata with
  | none => simp only [Option.bind]; split_ifs <;> simp_all
  | some md => simp only [Option.bind]; split_ifs <;> (simp_all; try omega)

/-!
## Triage metadata validation (`src/models.py`, `TriageMetadata`)

Pydantic validation of the two numeric fields of `TriageMetadata`:
`urgenza : int` carries a `field_validator` returning `max(1, min(5, v))`,
while `confidence : float` is declared with `ge=0.0, le=1.0`, which rejects
out-of-range values with a `ValidationError`.  Both fields are required.  An
externally supplied value is embedded as a `PyField`: `missing` (key absent),
`malformed` (not coercible to the declared numeric type) or `val`.
-/

/-- An externally supplied field value as seen by pydantic. -/
inductive PyField (α : Type) where
  | missing
  | malformed
  | val (a : α)
deriving DecidableEq, Repr

/-- Pydantic validation of `TriageMetadata.urgenza` and
`TriageMetadata.confidence` from `src/models.py`: a missing or non-numeric
field, or a confidence outside `[0, 1]`, raises `ValidationError` (`none`);
an integer urgency is clamped into `[1, 5]` by `clamp_urgenza`. -/
def validateTriageMetadata (urgenza : PyField Int) (confidence : PyField ℚ) :
    Option (Int × ℚ) :=
  match urgenza, confidence with
  | .val u, .val c => if 0 ≤ c ∧ c ≤ 1 then some (max 1 (min 5 u), c) else none
  | _, _ => none

/-- Counterexample to claim C3: an out-of-range confidence (1.5) causes the
metadata to be rejected with a `ValidationError` instead of being clamped,
and a missing urgency is likewise rejected instead of defaulting to 3. -/
theorem claim_C3_counterexample :
    validateTriageMetadata (.val 3) (.val (3/2)) = none ∧
    validateTriageMetadata .missing (.val (1/2)) = none := by
  constructor
  · simp only [validateTriageMetadata]
    norm_num
  · rfl

/-- Claim C3 (amended): integer urgency values are clamped into `[1, 5]`
before use; a confidence outside `[0, 1]`, or a missing or non-numeric
urgency or confidence, is rejected with a `ValidationError` rather than
clamped or defaulted; and every metadata record that passes validation
satisfies `urgenza ∈ [1, 5]` and `confidence ∈ [0, 1]`. -/
theorem claim_C3_metadata_bounds :
    (∀ u c m, validateTriageMetadata u c = some m →
      1 ≤ m.1 ∧ m.1 ≤ 5 ∧ 0 ≤ m.2 ∧ m.2 ≤ 1) ∧
    (∀ (u : Int) (q : ℚ), 0 ≤ q → q ≤ 1 →
      validateTriageMetadata (.val u) (.val q) = some (max 1 (min 5 u), q)) ∧
    (∀ (u : Int) (q : ℚ), ¬(0 ≤ q ∧ q ≤ 1) →
      validateTriageMetadata (.val u) (.val q) = none) ∧
    (∀ c, validateTriageMetadata .missing c = none) ∧
    (∀ c, validateTriageMetadata .malformed c = none) := by
  refine ⟨?_, ?_, ?_, ?_, ?_⟩
  · intro u c m h
    cases u with
    | missing => exact absurd h (by simp [validateTriageMetadata])
    | malformed => exact absurd h (by simp [validateTriageMetadata])
    | val u =>
      cases c with
      | missing => exact absurd h (by simp [validateTriageMetadata])
      | malformed => exact absurd h (by simp [validateTriageMetadata])
      | val c =>
        simp only [validateTriageMetadata] at h
        split_ifs at h with hc
        · cases h
          refine ⟨?_, ?_, hc.1, hc.2⟩ <;> omega
  · intro u q h0 h1
    simp only [validateTriageMetadata]
    rw [if_pos ⟨h0, h1⟩]
  · intro u q h
    simp only [validateTriageMetadata]
    rw [if_neg h]
  · intro c; cases c <;> rfl
  · intro c; cases c <;> rfl

/-- Witness for `claim_C3_metadata_bounds` at urgency 7, confidence 1/2. -/
theorem claim_C3_metadata_bounds_witness :
    validateTriageMetadata (.val 7) (.val (1/2)) = some (max 1 (min 5 7), 1/2) ∧
    (0 : ℚ) ≤ 1/2 ∧ (1/2 : ℚ) ≤ 1 := by
  have h := claim_C3_metadata_bounds.2.1 7 (1/2) (by norm_num) (by norm_num)
  exact ⟨h, by norm_num, by norm_num⟩

/-!
## Slot merging (`sync_session_context`)

`compat.py` and `test_fsm_basic.py` call
`TriageSessionBridge.sync_session_context`, which merges AI-extracted data
into the session slots, but the module defining `TriageSessionBridge` is not
in the repository (the `bridge.py` present only wraps the streaming call).
The merge is therefore modelled from the specification.
-/

/-- A slot value: a string slot (such as `LOCATION`) or a numeric slot
(such as `PAIN_SCALE`). -/
inductive SlotVal where
  | s (v : String)
  | n (v : Int)
deriving DecidableEq, Repr

/-- A slot holds a non-empty value (an empty string counts as empty). -/
def SlotVal.nonEmpty : SlotVal → Bool
  | .s v => v ≠ ""
  | .n _ => true

/-- Modelled from the spec: `TriageSessionBridge.sync_session_context` (the
class is missing from the repository; only its callers in `compat.py` and
its tests in `test_fsm_basic.py` are present).  Per the spec's merge-only
semantics, new extracted data only fills previously-empty slots and never
overwrites a slot already set to a non-empty value.  `slots` and `newData`
are association lists keyed by slot name; the result is the merged lookup. -/
def sync_session_context (slots newData : List (String × SlotVal)) (k : String) :
    Option SlotVal :=
  match slots.lookup k with
  | some v => if v.nonEmpty then some v else newData.lookup k
  | none => newData.lookup k

/-- Claim C4: merging newly extracted data into a session's slots never
overwrites a slot that already holds a non-empty value — every already-filled
slot keeps its previous value and only previously-empty slots are filled; in
particular merging `{LOCATION: "Modena", PAIN_SCALE: 7}` into
`{LOCATION: "Bologna"}` yields `LOCATION = "Bologna"` and `PAIN_SCALE = 7`. -/
theorem claim_C4_merge_only (slots newData : List (String × SlotVal)) (k : String) :
    (∀ v, slots.lookup k = some v → v.nonEmpty = true →
      sync_session_context slots newData k = some v) ∧
    (slots.lookup k = none →
      sync_session_context slots newData k = newData.lookup k) ∧
    sync_session_context [("LOCATION", .s "Bologna")]
      [("LOCATION", .s "Modena"), ("PAIN_SCALE", .n 7)] "LOCATION" =
      some (.s "Bologna") ∧
    sync_session_context [("LOCATION", .s "Bologna")]
      [("LOCATION", .s "Modena"), ("PAIN_SCALE", .n 7)] "PAIN_SCALE" =
      some (.n 7) := by
  refine ⟨?_, ?_, by decide, by decide⟩
  · intro v hv hne
    simp [sync_session_context, hv, hne]
  · intro hv
    simp [sync_session_context, hv]

/-- Witness for `claim_C4_merge_only`: the filled `LOCATION` slot is kept. -/
theorem claim_C4_merge_only_witness :
    sync_session_context [("LOCATION", SlotVal.s "Bologna")]
      [("LOCATION", SlotVal.s "Modena"), ("PAIN_SCALE", SlotVal.n 7)] "LOCATION" =
      some (SlotVal.s "Bologna") :=
  (claim_C4_merge_only [("LOCATION", SlotVal.s "Bologna")]
      [("LOCATION", SlotVal.s "Modena"), ("PAIN_SCALE", SlotVal.n 7)] "LOCATION").1
    (SlotVal.s "Bologna") (by decide) (by decide)

/-!
## Survey options validation (`src/models.py`, `TriageResponse.validate_options`
and `src/frontend.py`, `get_fallback_options`)

Pydantic runs the `opzioni` field validator only when the raw response
provides a value for the key (`validate_default` is not set); the raw input
is therefore `Option (Option (List String))`: the outer `Option` records
whether the key was provided, the inner one allows an explicit `null`.
-/

/-- Question kinds of `models.QuestionType`. -/
inductive QuestionType where
  | SURVEY
  | SCALE
  | TEXT
deriving DecidableEq, Repr

/-- `TriageResponse.validate_options` from `src/models.py`: for a survey
question with a falsy or shorter-than-2 options value, substitute the fixed
list `["Sì", "No", "Non so"]`. -/
def validate_options (tipo_domanda : QuestionType) (v : Option (List String)) :
    Option (List String) :=
  if tipo_domanda = .SURVEY then
    match v with
    | none => some ["Sì", "No", "Non so"]
    | some l => if l.length < 2 then some ["Sì", "No", "Non so"] else some l
  else v

/-- The `opzioni` value after pydantic validation of a raw response: an
omitted key keeps the default `None` without running the validator. -/
def opzioniAfterValidation (tipo_domanda : QuestionType)
    (raw : Option (Option (List String))) : Option (List String) :=
  match raw with
  | none => none
  | some v => validate_options tipo_domanda v

/-- Steps of `frontend.TriageStep`. -/
inductive TriageStep where
  | LOCATION
  | CHIEF_COMPLAINT
  | PAIN_SCALE
  | RED_FLAGS
  | ANAMNESIS
  | DISPOSITION
deriving DecidableEq, Repr

/-- All steps, in enum order. -/
def TriageStep.all : List TriageStep :=
  [.LOCATION, .CHIEF_COMPLAINT, .PAIN_SCALE, .RED_FLAGS, .ANAMNESIS, .DISPOSITION]

/-- `get_fallback_options` from `src/frontend.py` (`FALLBACK_MAP`). -/
def get_fallback_options : TriageStep → List String
  | .LOCATION =>
    ["Bologna", "Modena", "Parma", "Reggio Emilia",
     "Ferrara", "Ravenna", "Rimini", "Altro comune ER"]
  | .CHIEF_COMPLAINT =>
    ["Dolore", "Febbre", "Trauma/Caduta",
     "Difficoltà respiratorie", "Problemi gastrointestinali", "Altro sintomo"]
  | .PAIN_SCALE =>
    ["1-3 (Lieve/Sopportabile)", "4-6 (Moderato)",
     "7-8 (Forte)", "9-10 (Insopportabile)", "Nessun dolore"]
  | .RED_FLAGS =>
    ["Sì, ho sintomi gravi", "No, nessun sintomo preoccupante", "Non sono sicuro/a"]
  | .ANAMNESIS =>
    ["Fornisco informazioni", "Preferisco non rispondere", "Non applicabile"]
  | .DISPOSITION => ["Mostra raccomandazione finale"]

/-- Counterexample to claim C6: a survey response declaring `opzioni=["Sì"]`
is rewritten to the fixed list `["Sì", "No", "Non so"]`, which is not the
phase-specific fallback option list of any triage step
(`get_fallback_options` is never applied to AI responses). -/
theorem claim_C6_counterexample :
    opzioniAfterValidation .SURVEY (some (some ["Sì"])) = some ["Sì", "No", "Non so"] ∧
    (TriageStep.all.all fun st => get_fallback_options st ≠ ["Sì", "No", "Non so"]) = true := by
  constructor
  · rfl
  · decide

/-- Claim C6 (amended): whenever the raw response provides an `opzioni` value
(possibly `null`) for a survey question with fewer than 2 entries, the options
are replaced by the fixed canonical list `["Sì", "No", "Non so"]` (length 3),
not by the phase-specific fallback list; consequently every survey response
whose `opzioni` key was provided validates to an options list of length at
least 2.  (A raw survey response omitting the `opzioni` key entirely keeps the
default `None`, because pydantic does not run field validators on defaults.) -/
theorem claim_C6_survey_options (v : Option (List String)) (l : List String) :
    (opzioniAfterValidation .SURVEY (some v) = some l → 2 ≤ l.length) ∧
    ((v.getD []).length < 2 →
      opzioniAfterValidation .SURVEY (some v) = some ["Sì", "No", "Non so"]) ∧
    opzioniAfterValidation .SURVEY none = none := by
  refine ⟨?_, ?_, rfl⟩
  · intro h
    cases v with
    | none =>
      simp only [opzioniAfterValidation, validate_options, if_pos rfl] at h
      cases h
      decide
    | some l0 =>
      simp only [opzioniAfterValidation, validate_options, if_pos rfl] at h
      by_cases hl : l0.length < 2
      · rw [if_pos hl] at h
        cases h
        decide
      · rw [if_neg hl] at h
        cases h
        omega
  · intro h
    cases v with
    | none => rfl
    | some l0 =>
      simp only [Option.getD] at h
      simp [opzioniAfterValidation, validate_options, h]

/-- Witness for `claim_C6_survey_options` at the claim's own example
`opzioni=["Sì"]`. -/
theorem claim_C6_survey_options_witness :
    opzioniAfterValidation .SURVEY (some (some ["Sì"])) = some ["Sì", "No", "Non so"] ∧
    2 ≤ (["Sì", "No", "Non so"] : List String).length := by
  have h := (claim_C6_survey_options (some ["Sì"]) ["Sì", "No", "Non so"]).2.1 (by decide)
  exact ⟨h, (claim_C6_survey_options (some ["Sì"]) ["Sì", "No", "Non so"]).1 h⟩

/-!
## Triage state machine (`src/frontend.py`, `advance_step` and
`can_proceed_to_next_step`)

The effective definitions are the last ones in the file (line 1256 for
`advance_step`, line 1759 for `can_proceed_to_next_step`).  The session state
keeps the fields the transition reads or writes; timestamps and UI feedback
have no influence on the step and are not modelled.
-/

/-- `TriageStep.name` (the Python enum member name). -/
def TriageStep.name : TriageStep → String
  | .LOCATION => "LOCATION"
  | .CHIEF_COMPLAINT => "CHIEF_COMPLAINT"
  | .PAIN_SCALE => "PAIN_SCALE"
  | .RED_FLAGS => "RED_FLAGS"
  | .ANAMNESIS => "ANAMNESIS"
  | .DISPOSITION => "DISPOSITION"

/-- `TriageStep.value` (the Python enum ordinal, 1-based). -/
def TriageStep.value : TriageStep → Nat
  | .LOCATION => 1
  | .CHIEF_COMPLAINT => 2
  | .PAIN_SCALE => 3
  | .RED_FLAGS => 4
  | .ANAMNESIS => 5
  | .DISPOSITION => 6

/-- `TriageStep(n)` — enum lookup by value, `ValueError` as `none`. -/
def TriageStep.ofValue : Nat → Option TriageStep
  | 1 => some .LOCATION
  | 2 => some .CHIEF_COMPLAINT
  | 3 => some .PAIN_SCALE
  | 4 => some .RED_FLAGS
  | 5 => some .ANAMNESIS
  | 6 => some .DISPOSITION
  | _ => none

/-- `max(step.value for step in TriageStep)`. -/
def maxStepValue : Nat := (TriageStep.all.map TriageStep.value).foldr max 0

/-- The session-state fields read or written by the transition functions. -/
structure SessionState where
  current_step : TriageStep
  collected_data : List String
  step_completed : List TriageStep
deriving DecidableEq, Repr

/-- `can_proceed_to_next_step` from `src/frontend.py`: the DISPOSITION step
always proceeds; any other step proceeds only when `collected_data` holds a
validated value for it. -/
def can_proceed_to_next_step (s : SessionState) : Bool :=
  let has_data := s.collected_data.contains s.current_step.name
  if s.current_step = .DISPOSITION then true else has_data

/-- `advance_step` from `src/frontend.py` (line 1256): refuse when the
current step is not completed; otherwise mark it completed and, unless the
maximum enum value is reached, move to the step with value `value + 1`. -/
def advance_step (s : SessionState) : SessionState × Bool :=
  if ¬ can_proceed_to_next_step s then (s, false)
  else
    let s1 := { s with step_completed := s.current_step :: s.step_completed }
    if s.current_step.value < maxStepValue then
      match TriageStep.ofValue (s.current_step.value + 1) with
      | some next_step => ({ s1 with current_step := next_step }, true)
      | none => (s1, true)
    else (s1, true)

/-- Events that touch a session between turns: an `advance_step` call, or the
recording of a validated slot value (which never changes the step). -/
inductive SessionEvent where
  | advance
  | record (slot : String)

/-- Apply one event to the session state. -/
def applyEvent (s : SessionState) : SessionEvent → SessionState
  | .advance => (advance_step s).1
  | .record slot => { s with collected_data := slot :: s.collected_data }

/-- Apply a sequence of events. -/
def runEvents (s : SessionState) (es : List SessionEvent) : SessionState :=
  es.foldl applyEvent s

/-- One `advance_step` call never decreases the step value and moves by at
most one ordinal. -/
theorem advance_step_mono (s : SessionState) :
    ((advance_step s).1.current_step = s.current_step ∨
      (advance_step s).1.current_step.value = s.current_step.value + 1) ∧
    s.current_step.value ≤ (advance_step s).1.current_step.value := by
  by_cases hc : can_proceed_to_next_step s = true
  · cases hs : s.current_step <;>
      simp_all [advance_step, can_proceed_to_next_step, TriageStep.value,
        TriageStep.ofValue, maxStepValue, TriageStep.all, TriageStep.name]
  · cases hs : s.current_step <;>
      simp_all [advance_step, can_proceed_to_next_step, TriageStep.value,
        TriageStep.ofValue, maxStepValue, TriageStep.all, TriageStep.name]

/-- Claim C9: the session's step advances monotonically — every
`advance_step` transition either leaves the current step unchanged (exactly
when the current step's data is missing or the last step, DISPOSITION, is
reached) or moves to the step with the next higher ordinal value, and no
reachable sequence of transitions (advance calls interleaved with slot
recordings) ever decreases the step value.  The `EMERGENCY_OVERRIDE` marker
the claim excepts is only ever emitted as a response phase label; no
transition of the step state machine moves the step backwards. -/
theorem claim_C9_step_monotone (s : SessionState) (es : List SessionEvent) :
    ((advance_step s).1.current_step = s.current_step ∨
      (advance_step s).1.current_step.value = s.current_step.value + 1) ∧
    ((advance_step s).1.current_step = s.current_step ↔
      (s.collected_data.contains s.current_step.name = false ∨
        s.current_step = .DISPOSITION)) ∧
    s.current_step.value ≤ (runEvents s es).current_step.value := by
  refine ⟨(advance_step_mono s).1, ?_, ?_⟩
  · by_cases hd : s.collected_data.contains s.current_step.name = true
    · cases hs : s.current_step <;>
        simp_all [advance_step, can_proceed_to_next_step, TriageStep.value,
          TriageStep.ofValue, maxStepValue, TriageStep.all, TriageStep.name]
    · cases hs : s.current_step <;>
        simp_all [advance_step, can_proceed_to_next_step, TriageStep.value,
          TriageStep.ofValue, maxStepValue, TriageStep.all, TriageStep.name]
  · induction es generalizing s with
    | nil => exact le_refl _
    | cons e es ih =>
      refine le_trans ?_ (ih (applyEvent s e))
      cases e with
      | advance => exact (advance_step_mono s).2
      | record slot => exact le_refl _

/-!
## Input sanitizer (`src/frontend.py`, `DataSecurity.sanitize_input`)

`re.sub(r'<script.*?>.*?</script>|<.*?>', '', text, flags=re.DOTALL)` scans
left to right; at each position it first tries the script-block alternative
and then the single-tag alternative, and on a match continues after the
removed text.  Because the quantifiers are non-greedy and `</script>`
contains `>`, the script alternative succeeds exactly when `<script` is
followed by some `>` which is in turn followed by some `</script>`; that
composition is what `scriptMatch` computes.
-/

/-- The remainder after the first occurrence of character `c`, or `none`. -/
def dropThrough (c : Char) : Str → Option Str
  | [] => none
  | x :: xs => if x = c then some xs else dropThrough c xs

/-- The remainder after the first occurrence of the (non-empty) substring
`pat`, or `none`. -/
def dropThroughSeq (pat : Str) : Str → Option Str
  | [] => none
  | x :: xs =>
    if pat.isPrefixOf (x :: xs) then some (List.drop pat.length (x :: xs))
    else dropThroughSeq pat xs

theorem dropThrough_length {c : Char} :
    ∀ {l r : Str}, dropThrough c l = some r → r.length < l.length := by
  intro l
  induction l with
  | nil => intro r h; cases h
  | cons x xs ih =>
    intro r h
    by_cases hx : x = c
    · simp only [dropThrough, if_pos hx] at h
      cases h
      simp
    · simp only [dropThrough, if_neg hx] at h
      exact Nat.lt_trans (ih h) (by simp)

theorem dropThrough_mem {c a : Char} :
    ∀ {l r : Str}, dropThrough c l = some r → a ∈ r → a ∈ l := by
  intro l
  induction l with
  | nil => intro r h; cases h
  | cons x xs ih =>
    intro r h ha
    by_cases hx : x = c
    · simp only [dropThrough, if_pos hx] at h
      cases h
      exact List.mem_cons_of_mem _ ha
    · simp only [dropThrough, if_neg hx] at h
      exact List.mem_cons_of_mem _ (ih h ha)

theorem dropThrough_none {c : Char} :
    ∀ {l : Str}, dropThrough c l = none → c ∉ l := by
  intro l
  induction l with
  | nil => intro _; simp
  | cons x xs ih =>
    intro h
    by_cases hx : x = c
    · simp [dropThrough, if_pos hx] at h
    · simp only [dropThrough, if_neg hx] at h
      simp only [List.mem_cons]
      rintro (rfl | hm)
      · exact hx rfl
      · exact ih h hm

theorem dropThroughSeq_length {pat : Str} (hp : pat ≠ []) :
    ∀ {l r : Str}, dropThroughSeq pat l = some r → r.length < l.length := by
  intro l
  induction l with
  | nil => intro r h; cases h
  | cons x xs ih =>
    intro r h
    by_cases hx : pat.isPrefixOf (x :: xs)
    · simp only [dropThroughSeq, if_pos hx] at h
      cases h
      have hlen : 1 ≤ pat.length := by
        cases pat with
        | nil => exact absurd rfl hp
        | cons p ps => simp
      simp only [List.length_drop, List.length_cons]
      omega
    · simp only [dropThroughSeq, if_neg hx] at h
      exact Nat.lt_trans (ih h) (by simp)

theorem dropThroughSeq_mem {pat : Str} {a : Char} :
    ∀ {l r : Str}, dropThroughSeq pat l = some r → a ∈ r → a ∈ l := by
  intro l
  induction l with
  | nil => intro r h; cases h
  | cons x xs ih =>
    intro r h ha
    by_cases hx : pat.isPrefixOf (x :: xs)
    · simp only [dropThroughSeq, if_pos hx] at h
      cases h
      exact (List.drop_subset _ _) ha
    · simp only [dropThroughSeq, if_neg hx] at h
      exact List.mem_cons_of_mem _ (ih h ha)

/-- The script-block alternative `<script.*?>.*?</script>` tried at a
position whose `<` has already been consumed: the rest must start with
`script`, then contain a `>`, then contain `</script>`; returns the
remainder after the closing tag. -/
def scriptMatch (rest : Str) : Option Str :=
  if "script".data.isPrefixOf rest then
    match dropThrough '>' (List.drop 6 rest) with
    | some r1 => dropThroughSeq "</script>".data r1
    | none => none
  else none

theorem scriptMatch_length {rest r : Str} (h : scriptMatch rest = some r) :
    r.length < rest.length := by
  unfold scriptMatch at h
  split_ifs at h with hp
  cases h1 : dropThrough '>' (List.drop 6 rest) with
  | none => rw [h1] at h; cases h
  | some r1 =>
    rw [h1] at h
    have hr1 : r1.length < (List.drop 6 rest).length := dropThrough_length h1
    have hr : r.length < r1.length := dropThroughSeq_length (by decide) h
    have : (List.drop 6 rest).length ≤ rest.length := by simp
    omega

theorem scriptMatch_mem {rest r : Str} {a : Char} (h : scriptMatch rest = some r)
    (ha : a ∈ r) : a ∈ rest := by
  unfold scriptMatch at h
  split_ifs at h with hp
  cases h1 : dropThrough '>' (List.drop 6 rest) with
  | none => rw [h1] at h; cases h
  | some r1 =>
    rw [h1] at h
    exact (List.drop_subset _ _) (dropThrough_mem h1 (dropThroughSeq_mem h ha))

/-- The single pass of
`re.sub(r'<script.*?>.*?</script>|<.*?>', '', text, flags=re.DOTALL)`. -/
def stripTags : Str → Str
  | [] => []
  | c :: rest =>
    if c = '<' then
      match h1 : scriptMatch rest with
      | some r2 => stripTags r2
      | none =>
        match h2 : dropThrough '>' rest with
        | some r => stripTags r
        | none => c :: stripTags rest
    else c :: stripTags rest
termination_by l => l.length
decreasing_by
  · exact Nat.lt_trans (scriptMatch_length h1) (by simp)
  · exact Nat.lt_trans (dropThrough_length h2) (by simp)
  · simp
  · simp

/-- `DataSecurity.sanitize_input` from `src/frontend.py`: empty (falsy) input
yields the empty string; otherwise remove script blocks and tags, truncate to
2000 characters and strip surrounding whitespace. -/
def sanitize_input (text : Str) : Str :=
  if text = [] then [] else pyStrip ((stripTags text).take 2000)

/-- A complete HTML tag survives in `l`: some `'<'` is followed (strictly
later) by some `'>'`. -/
def hasTag : Str → Bool
  | [] => false
  | c :: cs => (c = '<' && cs.contains '>') || hasTag cs

theorem contains_false_iff (a : Char) (l : Str) : l.contains a = false ↔ a ∉ l := by
  rw [List.contains_eq_any_beq]
  simp only [List.any_eq_false, beq_iff_eq]
  constructor
  · intro h hm
    exact h a hm rfl
  · intro h x hx he
    exact h (he ▸ hx)

theorem mem_stripTags_aux {a : Char} :
    ∀ n, ∀ l : Str, l.length ≤ n → a ∈ stripTags l → a ∈ l := by
  intro n
  induction n with
  | zero =>
    intro l hn h
    cases l with
    | nil => simp [stripTags] at h
    | cons c rest => simp at hn
  | succ n ih =>
    intro l hn h
    cases l with
    | nil => simp [stripTags] at h
    | cons c rest =>
      by_cases hc : c = '<'
      · rw [stripTags, if_pos hc] at h
        cases h1 : scriptMatch rest with
        | some r2 =>
          rw [h1] at h
          have hlen : r2.length ≤ n :=
            le_trans (Nat.le_of_lt (scriptMatch_length h1)) (by simpa using hn)
          exact List.mem_cons_of_mem _ (scriptMatch_mem h1 (ih r2 hlen h))
        | none =>
          rw [h1] at h
          cases h2 : dropThrough '>' rest with
          | some r =>
            rw [h2] at h
            have hlen : r.length ≤ n :=
              le_trans (Nat.le_of_lt (dropThrough_length h2)) (by simpa using hn)
            exact List.mem_cons_of_mem _ (dropThrough_mem h2 (ih r hlen h))
          | none =>
            rw [h2] at h
            rcases List.mem_cons.mp h with rfl | hm
            · exact List.mem_cons_self _ _
            · exact List.mem_cons_of_mem _ (ih rest (by simpa using hn) hm)
      · rw [stripTags, if_neg hc] at h
        rcases List.mem_cons.mp h with rfl | hm
        · exact List.mem_cons_self _ _
        · exact List.mem_cons_of_mem _ (ih rest (by simpa using hn) hm)

theorem mem_stripTags {a : Char} {l : Str} (h : a ∈ stripTags l) : a ∈ l :=
  mem_stripTags_aux l.length l (le_refl _) h

theorem hasTag_stripTags_aux :
    ∀ n, ∀ l : Str, l.length ≤ n → hasTag (stripTags l) = false := by
  intro n
  induction n with
  | zero =>
    intro l hn
    cases l with
    | nil => simp [stripTags, hasTag]
    | cons c rest => simp at hn
  | succ n ih =>
    intro l hn
    cases l with
    | nil => simp [stripTags, hasTag]
    | cons c rest =>
      by_cases hc : c = '<'
      · rw [stripTags, if_pos hc]
        cases h1 : scriptMatch rest with
        | some r2 =>
          exact ih r2 (le_trans (Nat.le_of_lt (scriptMatch_length h1)) (by simpa using hn))
        | none =>
          cases h2 : dropThrough '>' rest with
          | some r =>
            exact ih r (le_trans (Nat.le_of_lt (dropThrough_length h2)) (by simpa using hn))
          | none =>
            have hrec : hasTag (stripTags rest) = false := ih rest (by simpa using hn)
            have hng : '>' ∉ stripTags rest := fun hmem =>
              dropThrough_none h2 (mem_stripTags hmem)
            simp only [hasTag, hrec, Bool.or_false, Bool.and_eq_false_iff]
            right
            exact (contains_false_iff _ _).mpr hng
      · rw [stripTags, if_neg hc]
        have hrec : hasTag (stripTags rest) = false := ih rest (by simpa using hn)
        simp only [hasTag, hrec, Bool.or_false, Bool.and_eq_false_iff]
        left
        simpa using hc

theorem hasTag_stripTags {l : Str} : hasTag (stripTags l) = false :=
  hasTag_stripTags_aux l.length l (le_refl _)

theorem hasTag_sublist {l₁ l₂ : Str} (h : l₁.Sublist l₂) (h2 : hasTag l₂ = false) :
    hasTag l₁ = false := by
  induction h with
  | slnil => rfl
  | cons a hs ih =>
    simp only [hasTag, Bool.or_eq_false_iff, Bool.and_eq_false_iff] at h2
    exact ih h2.2
  | cons₂ a hs ih =>
    simp only [hasTag, Bool.or_eq_false_iff, Bool.and_eq_false_iff] at h2 ⊢
    refine ⟨?_, ih h2.2⟩
    rcases h2.1 with ha | hg
    · exact Or.inl ha
    · right
      rw [contains_false_iff] at hg ⊢
      exact fun hm => hg (hs.subset hm)

theorem pyStrip_sublist (l : Str) : (pyStrip l).Sublist l := by
  unfold pyStrip
  have h1 : (l.dropWhile isPyWS).Sublist l := List.dropWhile_sublist _
  have h2 : ((l.dropWhile isPyWS).reverse.dropWhile isPyWS).Sublist
      (l.dropWhile isPyWS).reverse := List.dropWhile_sublist _
  have h3 := h2.reverse
  rw [List.reverse_reverse] at h3
  exact h3.trans h1

/-- Claim C10: for every input, `DataSecurity.sanitize_input` returns a
string of length at most 2000 in which no complete `<script>...</script>`
block and no complete HTML tag survives (no `<` in the output is ever
followed by a `>`), returns the empty string for empty (falsy) input, and —
being a total function — never raises an exception. -/
theorem claim_C10_sanitize_input (s : Str) :
    (sanitize_input s).length ≤ 2000 ∧
    hasTag (sanitize_input s) = false ∧
    sanitize_input [] = [] := by
  refine ⟨?_, ?_, rfl⟩
  · unfold sanitize_input
    split_ifs
    · simp
    · calc (pyStrip ((stripTags s).take 2000)).length
          ≤ ((stripTags s).take 2000).length := (pyStrip_sublist _).length_le
        _ ≤ 2000 := by simp
  · unfold sanitize_input
    split_ifs
    · rfl
    · exact hasTag_sublist ((pyStrip_sublist _).trans (List.take_sublist _ _))
        hasTag_stripTags

/-!
## Input normalizers (`src/frontend.py`, `InputValidator`)

`re.findall(r'\b(\d{1,3})\b', text)`: a candidate is a maximal run of word
characters that consists solely of 1–3 digits (a digit adjacent to another
word character has no word boundary, and a longer digit run cannot satisfy
the inner boundary), in text order.  `wordRuns` computes the maximal runs of
word characters.
-/

/-- Accumulator pass splitting a string into maximal word-character runs. -/
def wordRunsAux (cur : Str) : Str → List Str
  | [] => if cur = [] then [] else [cur.reverse]
  | c :: cs =>
    if isWordChar c then wordRunsAux (c :: cur) cs
    else if cur = [] then wordRunsAux [] cs
    else cur.reverse :: wordRunsAux [] cs

/-- Maximal runs of word characters, in text order. -/
def wordRuns (s : Str) : List Str := wordRunsAux [] s

/-- Numeric value of a digit run. -/
def digitRunValue (r : Str) : Nat :=
  r.foldl (fun acc c => acc * 10 + (c.toNat - '0'.toNat)) 0

/-- `re.findall(r'\b(\d{1,maxLen})\b', text)` as the list of values of the
all-digit maximal word runs of length at most `maxLen`. -/
def findallDigits (maxLen : Nat) (text : Str) : List Nat :=
  ((wordRuns text).filter (fun r => decide (r.length ≤ maxLen) && r.all isDigitCh)).map
    digitRunValue

/-- `InputValidator.WORD_TO_NUM`, in insertion order. -/
def WORD_TO_NUM : List (String × Nat) :=
  [("zero", 0), ("uno", 1), ("due", 2), ("tre", 3), ("quattro", 4), ("cinque", 5),
   ("sei", 6), ("sette", 7), ("otto", 8), ("nove", 9), ("dieci", 10),
   ("venti", 20), ("trenta", 30), ("quaranta", 40), ("cinquanta", 50),
   ("sessanta", 60), ("settanta", 70), ("ottanta", 80), ("novanta", 90),
   ("cento", 100)]

/-- The spelled-number and category fallback of `validate_age` (steps 2–3). -/
def validateAgeWords (text : Str) : Bool × Option Nat :=
  match WORD_TO_NUM.find? (fun p => containsSub p.1.data text) with
  | some p => (true, some p.2)
  | none =>
    if containsSub "bambin".data text then (true, some 7)
    else if containsSub "anzian".data text || containsSub "vecchio".data text then
      (true, some 80)
    else if containsSub "neonato".data text then (true, some 0)
    else (false, none)

/-- `InputValidator.validate_age` from `src/frontend.py`. -/
def validate_age (user_input : Str) : Bool × Option Nat :=
  if user_input = [] then (false, none)
  else
    let text := pyLower user_input
    match findallDigits 3 text with
    | age :: _ => if age ≤ 120 then (true, some age) else validateAgeWords text
    | [] => validateAgeWords text

/-- `pain_map` of `InputValidator.validate_pain_scale`, in insertion order. -/
def PAIN_MAP : List (String × Nat) :=
  [("lieve", 2), ("poco", 2), ("moderato", 5), ("medio", 5),
   ("forte", 8), ("molto", 8), ("intenso", 8), ("acuto", 8),
   ("insopportabile", 10), ("atroce", 10), ("estremo", 10)]

/-- The qualitative-descriptor fallback of `validate_pain_scale`. -/
def painWords (text : Str) : Bool × Option Nat :=
  match PAIN_MAP.find? (fun p => containsSub p.1.data text) with
  | some p => (true, some p.2)
  | none => (false, none)

/-- `InputValidator.validate_pain_scale` from `src/frontend.py`. -/
def validate_pain_scale (user_input : Str) : Bool × Option Nat :=
  if user_input = [] then (false, none)
  else
    let text := pyLower user_input
    match findallDigits 2 text with
    | n :: _ => if 1 ≤ n ∧ n ≤ 10 then (true, some n) else painWords text
    | [] => painWords text

/-- Counterexample to claim C8: `validate_age("sessantacinque anni")` returns
`(True, 5)` — the vocabulary holds only simple number words and is matched by
substring in insertion order, so `"cinque"` (inside `"sessantacinque"`) wins
— not `(True, 65)` as the claim states. -/
theorem claim_C8_counterexample :
    validate_age "sessantacinque anni".data = (true, some 5) ∧
    validate_age "sessantacinque anni".data ≠ (true, some 65) := by
  constructor
  · decide
  · decide

/-- Claim C8 (amended): the spelled-out-number and qualitative-descriptor
vocabularies give `validate_age("sessantacinque anni") = (True, 5)` (the
first vocabulary word occurring as a substring, `"cinque"`, wins — there is
no compound-number entry) and
`validate_pain_scale("insopportabile") = (True, 10)`. -/
theorem claim_C8_reference_outputs :
    validate_age "sessantacinque anni".data = (true, some 5) ∧
    validate_pain_scale "insopportabile".data = (true, some 10) := by
  constructor
  · decide
  · decide

/-!
## Location normalizer (`src/frontend.py`, `InputValidator.validate_location`
and `load_comuni_er`)

`COMUNI_ER_VALIDI` is a Python **set** (both the set built from
`mappa_er.json` and the hard-coded fallback of `load_comuni_er`), yet the
fuzzy-match branch evaluates `list(COMUNI_ER_VALIDI.keys())`, and sets have
no `keys` attribute: every input that is non-empty and not an exact match
reaches that expression and raises `AttributeError`.  The embedding is
parameterized by the municipality set and returns `Except`, with `.error`
standing for the raised exception.
-/

/-- The hard-coded fallback municipality set of `load_comuni_er`. -/
def COMUNI_FALLBACK : List String :=
  ["bologna", "modena", "parma", "reggio emilia", "ferrara",
   "ravenna", "rimini", "forlì", "piacenza", "cesena"]

/-- The leading-article alternatives of `re.sub(r'^(il|lo|la|i|gli|le|a|di)\s+', '', t)`,
in alternation order. -/
def articleAlts : List String := ["il", "lo", "la", "i", "gli", "le", "a", "di"]

/-- Strip one leading article followed by whitespace (the anchored `re.sub`
matches at most once; `\s+` is greedy). -/
def stripLeadingArticle (t : Str) : Str :=
  match articleAlts.find? (fun a =>
      a.data.isPrefixOf t &&
      match t.drop a.length with
      | c :: _ => isPyWS c
      | [] => false) with
  | some a => (t.drop a.length).dropWhile isPyWS
  | none => t

/-- `InputValidator.validate_location` from `src/frontend.py`, parameterized
by the municipality set: falsy input returns `(False, None)`; an exact match
returns the title-cased name; otherwise the source evaluates
`COMUNI_ER_VALIDI.keys()` on a set and raises `AttributeError`. -/
def validate_location (comuni : List String) (user_input : Str) :
    Except String (Bool × Option Str) :=
  if user_input = [] then .ok (false, none)
  else
    let target := stripLeadingArticle (pyStrip (pyLower user_input))
    if comuni.any (fun c => c.data = target) then .ok (true, some (pyTitle target))
    else .error "AttributeError: set object has no attribute keys"

/-- Claim C5 (code bug): `validate_location` is not total — on any non-empty
input that is not an exact match of a known municipality (here `"bolonga"`)
the fuzzy-match branch evaluates `.keys()` on a set and raises
`AttributeError` instead of returning `(False, None)`, contradicting the
claim that no normalizer raises; the exact-match path still works
(`"Bologna"` validates to the title-cased name). -/
theorem claim_C5_validate_location_raises :
    validate_location COMUNI_FALLBACK "bolonga".data =
      .error "AttributeError: set object has no attribute keys" ∧
    validate_location COMUNI_FALLBACK "Bologna".data =
      .ok (true, some "Bologna".data) := by
  exact ⟨rfl, rfl⟩

/-!
## Diagnosis sanitizer (`src/model_orchestrator_v2.py`, `DiagnosisSanitizer`)

Each of the seven `FORBIDDEN_PATTERNS` is embedded as a match-at-position
predicate over (previous character, remainder); `re.search` is the
disjunction over all positions.  Non-greedy/greedy distinctions are
irrelevant to the boolean result, except where a quantified class overlaps a
following literal; whitespace and word characters are disjoint, so the
quantifier splits below are forced and the embedding is exact.
-/

/-- Scan every position of the text, keeping the previous character for
word-boundary tests. -/
def reSearchGo (m : Option Char → Str → Bool) (prev : Option Char) : Str → Bool
  | [] => m prev []
  | c :: cs => m prev (c :: cs) || reSearchGo m (some c) cs

/-- `re.search(pattern, text)` as a boolean. -/
def reSearch (m : Option Char → Str → Bool) (l : Str) : Bool := reSearchGo m none l

/-- Word boundary before a word character: start of text or a non-word
previous character. -/
def nonWordBefore : Option Char → Bool
  | none => true
  | some c => !isWordChar c

/-- Word boundary after a word character: end of text or a non-word next
character. -/
def boundaryAfter : Str → Bool
  | [] => true
  | c :: _ => !isWordChar c

/-- A word bracketed by two word boundaries, matched at one position. -/
def wordLitAt (w : Str) (prev : Option Char) (rest : Str) : Bool :=
  nonWordBefore prev && (w.isPrefixOf rest && boundaryAfter (rest.drop w.length))

/-- One or more whitespace characters, consumed greedily (the following
pattern parts never start with whitespace). -/
def ws1 : Str → Option Str
  | [] => none
  | c :: cs => if isPyWS c then some (cs.dropWhile isPyWS) else none

/-- The next character exists and is a word character. -/
def startsWordChar : Str → Bool
  | [] => false
  | c :: _ => isWordChar c

/-- The article alternatives of the fourth forbidden pattern: `la`, `il`,
and `un` followed by an optional apostrophe or `a` and a literal space. -/
def p4Alts : List Str :=
  ["la".data, "il".data, "un ".data, "un".data ++ [Char.ofNat 39, ' '], "una ".data]

/-- Fourth forbidden pattern (`hai` + article + a word) at one position. -/
def p4At (prev : Option Char) (rest : Str) : Bool :=
  nonWordBefore prev &&
    ("hai".data.isPrefixOf rest &&
      (match ws1 (rest.drop 3) with
       | none => false
       | some r2 =>
         p4Alts.any (fun alt =>
           alt.isPrefixOf r2 &&
             (match ws1 (r2.drop alt.length) with
              | none => false
              | some r3 => startsWordChar r3))))

/-- Fifth forbidden pattern (`è` + certainty adverb) at one position. -/
def p5At (prev : Option Char) (rest : Str) : Bool :=
  nonWordBefore prev &&
    ("è".data.isPrefixOf rest &&
      (match ws1 (rest.drop 1) with
       | none => false
       | some r2 =>
         ["sicuramente".data, "probabilmente".data].any (fun w =>
           w.isPrefixOf r2 && boundaryAfter (r2.drop w.length))))

/-- Sixth forbidden pattern (`prendi` + a word + `mg`) at one position. -/
def p6At (prev : Option Char) (rest : Str) : Bool :=
  nonWordBefore prev &&
    ("prendi".data.isPrefixOf rest &&
      (match ws1 (rest.drop 6) with
       | none => false
       | some r2 =>
         startsWordChar r2 &&
           (match ws1 (r2.dropWhile isWordChar) with
            | none => false
            | some r3 => "mg".data.isPrefixOf r3 && boundaryAfter (r3.drop 2))))

/-- Group-1 alternatives of the seventh forbidden pattern. -/
def p7Group1 : List Str :=
  ["hai".data, "sembra che tu abbia".data, "potresti avere".data]

/-- Disease words of the seventh forbidden pattern. -/
def p7Diseases : List Str :=
  ["infiammazione".data, "infezione".data, "patologia".data, "malattia".data]

/-- A disease word with its final word boundary, matched here. -/
def p7DiseaseAt (l : Str) : Bool :=
  p7Diseases.any (fun d => d.isPrefixOf l && boundaryAfter (l.drop d.length))

/-- The `.*`-then-disease tail: consume non-newline characters until a
position whose previous character is non-word and a disease word matches. -/
def p7DotStar (prev : Char) : Str → Bool
  | [] => !isWordChar prev && p7DiseaseAt []
  | c :: cs => (!isWordChar prev && p7DiseaseAt (c :: cs)) || (c ≠ '\n' && p7DotStar c cs)

/-- The `\s+`-then-`.*` tail: at least one whitespace character has been
consumed (the argument `prev`); keep consuming whitespace or hand over to the
dot-star phase (newlines are whitespace but not matched by the dot). -/
def p7WsPlus (prev : Char) : Str → Bool
  | [] => p7DotStar prev []
  | c :: cs => p7DotStar prev (c :: cs) || (isPyWS c && p7WsPlus c cs)

/-- Seventh forbidden pattern at one position. -/
def p7At (prev : Option Char) (rest : Str) : Bool :=
  nonWordBefore prev &&
    p7Group1.any (fun g =>
      g.isPrefixOf rest &&
        (match rest.drop g.length with
         | [] => false
         | c :: cs => isPyWS c && p7WsPlus c cs))

/-- `any(re.search(p, text_lower) for p in FORBIDDEN_PATTERNS)` — the loop in
`DiagnosisSanitizer.sanitize` replaces the text exactly when some pattern
matches, so only the disjunction matters. -/
def matchesForbidden (t : Str) : Bool :=
  reSearch (wordLitAt "diagnosi".data) t ||
  reSearch (wordLitAt "prescrivo".data) t ||
  reSearch (wordLitAt "terapia".data) t ||
  reSearch p4At t ||
  reSearch p5At t ||
  reSearch p6At t ||
  reSearch p7At t

/-- The metadata record of `models.TriageMetadata` after validation. -/
structure TriageMetadataR where
  urgenza : Int
  area : String
  red_flags : List String
  confidence : ℚ
  fallback_used : Bool
deriving DecidableEq, Repr

/-- The response record of `models.TriageResponse` after validation. -/
structure TriageResponse where
  testo : String
  tipo_domanda : QuestionType
  opzioni : Option (List String)
  metadata : TriageMetadataR
deriving DecidableEq, Repr

/-- The fixed safe clarifying message substituted by the sanitizer. -/
def SAFE_MESSAGE : String :=
  "In base ai dati raccolti, la situazione merita un approfondimento clinico.  Potresti descrivermi meglio da quanto tempo avverti questi sintomi?"

/-- `DiagnosisSanitizer.sanitize` from `src/model_orchestrator_v2.py`. -/
def DiagnosisSanitizer.sanitize (r : TriageResponse) : TriageResponse :=
  if matchesForbidden (pyLower r.testo.data) then
    { r with testo := SAFE_MESSAGE, metadata := { r.metadata with confidence := 1/10 } }
  else r

/-- The concrete response refuting claim C2's parenthetical. -/
def exResponseC2 : TriageResponse :=
  { testo := "ohai la polmonite", tipo_domanda := .TEXT, opzioni := none,
    metadata := { urgenza := 3, area := "Generale", red_flags := [],
                  confidence := 9/10, fallback_used := false } }

/-- Counterexample to claim C2: the text `"ohai la polmonite"` contains
`"hai la polmonite"` as a substring, yet no forbidden pattern matches (the
pattern requires a word boundary before `hai`, and the preceding `o` is a
word character), so the response is returned unchanged — neither replaced by
the safe message nor forced to confidence 0.1. -/
theorem claim_C2_counterexample :
    containsSub "hai la polmonite".data (pyLower exResponseC2.testo.data) = true ∧
    DiagnosisSanitizer.sanitize exResponseC2 = exResponseC2 ∧
    exResponseC2.testo ≠ SAFE_MESSAGE ∧
    exResponseC2.metadata.confidence ≠ 1/10 := by
  refine ⟨by decide, rfl, by decide, by norm_num [exResponseC2]⟩

/-- The last character of `a`, falling back to `prev` when `a` is empty:
the character preceding position `|a|` when scanning `a ++ b` from a
position whose own predecessor is `prev`. -/
def lastOption (prev : Option Char) : Str → Option Char
  | [] => prev
  | c :: cs => lastOption (some c) cs

theorem reSearchGo_append (m : Option Char → Str → Bool) :
    ∀ (a : Str) (prev : Option Char) (b : Str),
      m (lastOption prev a) b = true → reSearchGo m prev (a ++ b) = true := by
  intro a
  induction a with
  | nil =>
    intro prev b h
    cases b with
    | nil => exact h
    | cons c cs =>
      simp only [List.nil_append, reSearchGo, Bool.or_eq_true]
      exact Or.inl h
  | cons c a ih =>
    intro prev b h
    simp only [List.cons_append, reSearchGo, Bool.or_eq_true]
    exact Or.inr (ih (some c) b h)

theorem p4At_at_keyword (pv : Option Char) (post : Str)
    (h : nonWordBefore pv = true) :
    p4At pv ("hai la polmonite".data ++ post) = true := by
  unfold p4At
  rw [h]
  rfl

/-- Claim C2 (amended): `DiagnosisSanitizer.sanitize` replaces the text with
the fixed safe clarifying message and forces `confidence = 0.1` on every
response whose lowered text matches a forbidden pattern, and returns every
non-matching response unchanged; in particular every response whose lowered
text contains `hai la polmonite` *at a word boundary* (at the start of the
text or preceded by a non-word character) is replaced.  (A text containing
the phrase only inside a larger word, such as `ohai la polmonite`, is not
replaced — see the counterexample.) -/
theorem claim_C2_sanitizer (r : TriageResponse) (pre post : Str) :
    (matchesForbidden (pyLower r.testo.data) = true →
      DiagnosisSanitizer.sanitize r =
        { r with testo := SAFE_MESSAGE,
                 metadata := { r.metadata with confidence := 1/10 } }) ∧
    (matchesForbidden (pyLower r.testo.data) = false →
      DiagnosisSanitizer.sanitize r = r) ∧
    (pyLower r.testo.data = pre ++ ("hai la polmonite".data ++ post) →
      nonWordBefore (lastOption none pre) = true →
      DiagnosisSanitizer.sanitize r =
        { r with testo := SAFE_MESSAGE,
                 metadata := { r.metadata with confidence := 1/10 } }) := by
  refine ⟨?_, ?_, ?_⟩
  · intro h
    simp [DiagnosisSanitizer.sanitize, h]
  · intro h
    simp [DiagnosisSanitizer.sanitize, h]
  · intro heq hwb
    have hp4 : reSearch p4At (pyLower r.testo.data) = true := by
      rw [heq]
      exact reSearchGo_append p4At pre none _ (p4At_at_keyword _ post hwb)
    have hm : matchesForbidden (pyLower r.testo.data) = true := by
      unfold matchesForbidden
      rw [hp4]
      simp
    simp [DiagnosisSanitizer.sanitize, hm]

/-- The response used to witness `claim_C2_sanitizer`. -/
def wResponseC2 : TriageResponse :=
  { testo := "hai la polmonite", tipo_domanda := .TEXT, opzioni := none,
    metadata := { urgenza := 3, area := "Generale", red_flags := [],
                  confidence := 9/10, fallback_used := false } }

/-- Witness for `claim_C2_sanitizer`: the text `hai la polmonite` itself is
replaced by the safe message with confidence 0.1. -/
theorem claim_C2_sanitizer_witness :
    DiagnosisSanitizer.sanitize wResponseC2 =
      { wResponseC2 with testo := SAFE_MESSAGE,
                         metadata := { wResponseC2.metadata with confidence := 1/10 } } :=
  (claim_C2_sanitizer wResponseC2 [] []).2.2 (by decide) (by decide)
